import Mathlib

/-!
Verification development for the advisory fetcher in src/fetch_advisories.js
(the paginated implementation: one-year cutoff, page loop with a 500-page
ceiling, rate-limit retry, transform to the normalized schema, merge by
sourceId into the on-disk snapshot, write only when records were added).

The JavaScript is embedded shallowly:
* raw API advisories and normalized records become Lean structures;
* JavaScript `undefined`/`null` optional fields become `Option`;
* the page loop becomes a well-founded recursion on the remaining page
  budget (`501 - page`), mirroring the `page > 500` ceiling check;
* the error-handling loop (429/403 retry versus rethrow) becomes a fueled
  recursion, since the source retries rate limits without an attempt cap;
* `parseInt(undefined)` (a NaN) is modelled as `none`, and the fact that
  NaN fails the `retryAfter > 0 && retryAfter < 3600` guard as the `none`
  branch falling back to 60;
* the snapshot file becomes an explicit `FileState`; the effects of a run
  are a returned exit code, final file state, and a wrote flag.
-/

namespace Pistachio

/-- The `package` object inside one entry of the `vulnerabilities` array of
an advisory. -/
structure Package where
  name : String
  ecosystem : String
deriving DecidableEq

/-- One entry of the `vulnerabilities` array of an advisory. -/
structure Vulnerability where
  package : Package
  vulnerable_version_range : Option String
  first_patched_version : Option String
deriving DecidableEq

/-- One entry of the `identifiers` array of an advisory. -/
structure IdEntry where
  value : String
deriving DecidableEq

/-- One entry of the `cwes` array of an advisory. -/
structure CweEntry where
  cwe_id : String
deriving DecidableEq

/-- The optional `cvss` object of an advisory. -/
structure CvssInfo where
  score : Option Int
deriving DecidableEq

/-- A raw advisory as returned by the GitHub API.  Timestamps are epoch
numbers; optional arrays and objects are `Option`. -/
structure Advisory where
  ghsa_id : String
  severity : String
  summary : String
  description : String
  vulnerabilities : Option (List Vulnerability)
  identifiers : Option (List IdEntry)
  cwes : Option (List CweEntry)
  published_at : Int
  updated_at : Int
  withdrawn_at : Option Int
  references : List String
  html_url : String
  url : String
  cvss : Option CvssInfo
deriving DecidableEq

/-- The `metadata` sub-object of a transformed record. -/
structure MetaInfo where
  htmlUrl : String
  apiUrl : String
  cvssScore : Option Int
deriving DecidableEq

/-- A transformed (normalized) record, as built by the `.map` callback in
src/fetch_advisories.js. -/
structure NormalizedRecord where
  id : String
  source : String
  sourceId : String
  ecosystem : String
  packageName : String
  kind : String
  severity : String
  summary : String
  description : String
  affectedVersionRanges : List (Option String)
  firstPatchedVersion : Option String
  aliases : List String
  cwes : List String
  publishedAt : Int
  updatedAt : Int
  withdrawnAt : Option Int
  references : List String
  metadata : MetaInfo
deriving DecidableEq

/-- The transformer (the `allNewAdvisories.map(advisory => ...)` callback).
The JS guard `advisory.vulnerabilities && advisory.vulnerabilities.length > 0`
is exactly the `some (v :: vs)` pattern; `advisory.vulnerabilities &&
advisory.vulnerabilities[0]` for `firstPatchedVersion` is the same pattern. -/
def transformAdvisory (a : Advisory) : NormalizedRecord :=
  let pkgName : String :=
    match a.vulnerabilities with
    | some (v :: _) => v.package.name
    | _ => "unknown"
  let eco : String :=
    match a.vulnerabilities with
    | some (v :: _) => v.package.ecosystem
    | _ => "npm"
  let ranges : List (Option String) :=
    match a.vulnerabilities with
    | some (v :: vs) => (v :: vs).map (fun w => w.vulnerable_version_range)
    | _ => []
  let firstPatched : Option String :=
    match a.vulnerabilities with
    | some (v :: _) => v.first_patched_version
    | _ => none
  { id := "github:" ++ a.ghsa_id ++ ":" ++ eco ++ ":" ++ pkgName,
    source := "github",
    sourceId := a.ghsa_id,
    ecosystem := eco,
    packageName := pkgName,
    kind := "malware",
    severity := a.severity,
    summary := a.summary,
    description := a.description,
    affectedVersionRanges := ranges,
    firstPatchedVersion := firstPatched,
    aliases := (match a.identifiers with
      | some l => l.map (fun i => i.value)
      | none => []),
    cwes := (match a.cwes with
      | some l => l.map (fun c => c.cwe_id)
      | none => []),
    publishedAt := a.published_at,
    updatedAt := a.updated_at,
    withdrawnAt := a.withdrawn_at,
    references := a.references,
    metadata := { htmlUrl := a.html_url, apiUrl := a.url,
                  cvssScore := (match a.cvss with
                    | some c => c.score
                    | none => none) } }

/-- The inner `for (const advisory of data)` scan of one page against the
one-year cutoff: accept records in order until one has
`publishedAt < cutoff`, in which case stop and clear `keepFetching`
(second component `false`). -/
def scanPage (cutoff : Int) : List Advisory → List Advisory × Bool
  | [] => ([], true)
  | a :: rest =>
    if a.published_at < cutoff then ([], false)
    else
      let r := scanPage cutoff rest
      (a :: r.1, r.2)

/-- The page loop of src/fetch_advisories.js when every request succeeds.
`api` gives the response body for each page number.  Returns the accepted
records together with the list of page numbers actually requested.  The
`page > 500` check happens after the increment, exactly as in the source. -/
def fetchGo (api : Nat → List Advisory) (cutoff : Int) (page : Nat) :
    List Advisory × List Nat :=
  if (api page).isEmpty then ([], [page])
  else
    if (scanPage cutoff (api page)).2 then
      if _h : 500 < page + 1 then ((scanPage cutoff (api page)).1, [page])
      else
        ((scanPage cutoff (api page)).1 ++ (fetchGo api cutoff (page + 1)).1,
         page :: (fetchGo api cutoff (page + 1)).2)
    else ((scanPage cutoff (api page)).1, [page])
termination_by 501 - page
decreasing_by all_goals omega

/-- The data carried by a failed axios request: `status` is `none` when
`error.response` is absent (transport failure), and the two rate-limit
headers are `none` when missing. -/
structure ErrInfo where
  status : Option Nat
  retryAfter : Option Int
  ratelimitReset : Option Int
deriving DecidableEq

/-- One response of the remote endpoint: a page body or a failure. -/
inductive FetchResult where
  | ok (data : List Advisory)
  | err (info : ErrInfo)
deriving DecidableEq

/-- The status test of the catch block:
`error.response && (error.response.status === 429 || error.response.status === 403)`. -/
def isRateLimit (status : Option Nat) : Bool :=
  match status with
  | some s => s == 429 || s == 403
  | none => false

/-- The wait computation of the catch block, as written.  Because the JS
ternary binds looser than `||`, the code is
`(headers[ra] || headers[reset]) ? (parseInt(headers[reset]) - now) : 60`;
when the reset header is absent `parseInt(undefined)` is NaN (here `none`),
and NaN fails the `retryAfter > 0 && retryAfter < 3600` guard, so the
result falls back to 60. -/
def jsWaitSeconds (retryAfter reset : Option Int) (now : Int) : Int :=
  let ra : Option Int :=
    if retryAfter.isSome || reset.isSome then
      match reset with
      | some t => some (t - now)
      | none => none
    else some 60
  match ra with
  | some w => if 0 < w ∧ w < 3600 then w else 60
  | none => 60

/-- Modelled from the spec: the wait the specification describes — "compute
a wait duration from a retry-after header if present, else from a
rate-limit-reset header minus current time, else a default (60s); clamp to
a sane positive bound".  Kept for comparison with `jsWaitSeconds`. -/
def specWaitSeconds (retryAfter reset : Option Int) (now : Int) : Int :=
  let w : Int :=
    match retryAfter with
    | some r => r
    | none =>
      match reset with
      | some t => t - now
      | none => 60
  if 0 < w ∧ w < 3600 then w else 60

/-- The full fetch loop of src/fetch_advisories.js with its catch block.
`api page attempt` is the response of the endpoint to the `attempt`-th request
of `page`.  A 429/403 failure retries the same page (the `continue`); any
other failure is rethrown as `Except.error`.  Because the source retries
rate limits without an attempt cap, the loop carries fuel; `none` means
the fuel ran out.  The sleep durations do not influence control flow and
are not recorded. -/
def fetchLoopF (api : Nat → Nat → FetchResult) (cutoff : Int) :
    Nat → Nat → Nat → Option (Except ErrInfo (List Advisory))
  | 0, _, _ => none
  | fuel + 1, page, attempt =>
    match api page attempt with
    | .err info =>
      if isRateLimit info.status then fetchLoopF api cutoff fuel page (attempt + 1)
      else some (.error info)
    | .ok data =>
      if data.isEmpty then some (.ok [])
      else
        if (scanPage cutoff data).2 then
          if 500 < page + 1 then some (.ok (scanPage cutoff data).1)
          else (fetchLoopF api cutoff fuel (page + 1) 0).map
            (fun r => r.map (fun rest => (scanPage cutoff data).1 ++ rest))
        else some (.ok (scanPage cutoff data).1)

/-- The parsed shape of the snapshot file when it is a JSON object.  Every
field is optional: the loader performs no shape validation. -/
structure JsObject where
  schemaVersion : Option String
  generatedAt : Option String
  advisories : Option (List NormalizedRecord)
deriving DecidableEq

/-- The state of the snapshot file on disk. -/
inductive FileState where
  | absent
  | unparsable (text : String)
  | legacyArray (raw : List String)
  | object (o : JsObject)
deriving DecidableEq

/-- The `existingData` initializer of src/fetch_advisories.js. -/
def defaultData (now : String) : JsObject :=
  { schemaVersion := some "1.0", generatedAt := some now, advisories := some [] }

/-- The load step: keep the default when the file is absent, fails to
parse, or parses to a bare array (the legacy format, discarded); adopt a
parsed object verbatim. -/
def loadExisting (file : FileState) (now : String) : JsObject :=
  match file with
  | .absent => defaultData now
  | .unparsable _ => defaultData now
  | .legacyArray _ => defaultData now
  | .object o => o

/-- The identity keys of a record list (`.map(a => a.sourceId)`). -/
def sourceIds (l : List NormalizedRecord) : List String :=
  l.map (fun r => r.sourceId)

/-- The merge loop: walk the batch, appending each record whose `sourceId`
is not in the seen set and adding its key to the set immediately;
`k` is the running `addedCount`. -/
def mergeLoop : List NormalizedRecord → List String → List NormalizedRecord → Nat →
    List NormalizedRecord × Nat
  | acc, _, [], k => (acc, k)
  | acc, seen, b :: rest, k =>
    if b.sourceId ∈ seen then mergeLoop acc seen rest k
    else mergeLoop (acc ++ [b]) (b.sourceId :: seen) rest (k + 1)

/-- The merge step: seed the seen set with the ids of the existing records and
run the loop with `addedCount = 0`. -/
def mergeDedup (existing batch : List NormalizedRecord) : List NormalizedRecord × Nat :=
  mergeLoop existing (sourceIds existing) batch 0

/-- The observable outcome of a run: process exit code, final snapshot
file state, and whether `writeFileSync` ran. -/
structure RunOutcome where
  exit : Nat
  file : FileState
  wrote : Bool
deriving DecidableEq

/-- The merge-and-commit step given the loaded object.  When the loaded
object has no `advisories` field, `existingData.advisories.map` throws a
TypeError that the outer catch turns into `process.exit(1)`; otherwise the
file is rewritten, with `generatedAt` bumped, exactly when
`addedCount > 0`. -/
def runWithLoaded (file : FileState) (o : JsObject) (batch : List NormalizedRecord)
    (now : String) : RunOutcome :=
  match o.advisories with
  | none => ⟨1, file, false⟩
  | some advs =>
    let m := mergeDedup advs batch
    if 0 < m.2 then
      ⟨0, .object { o with generatedAt := some now, advisories := some m.1 }, true⟩
    else ⟨0, file, false⟩

/-- Load then merge-and-commit: the persistence half of the run. -/
def fullPersist (file : FileState) (batch : List NormalizedRecord) (now : String) :
    RunOutcome :=
  runWithLoaded file (loadExisting file now) batch now

/-- A whole run: fetch, transform, then persist.  A fetch error reaches
the outer catch: exit code 1 and the file untouched. -/
def fullRun (api : Nat → Nat → FetchResult) (cutoff : Int) (fuel : Nat)
    (file : FileState) (now : String) : Option RunOutcome :=
  match fetchLoopF api cutoff fuel 1 0 with
  | none => none
  | some (.error _) => some ⟨1, file, false⟩
  | some (.ok advs) => some (fullPersist file (advs.map transformAdvisory) now)

/-- A normalized record with the given identity key, for concrete runs. -/
def mkRec (sid : String) : NormalizedRecord :=
  { id := "github:" ++ sid ++ ":npm:unknown", source := "github", sourceId := sid,
    ecosystem := "npm", packageName := "unknown", kind := "malware",
    severity := "high", summary := "", description := "",
    affectedVersionRanges := [], firstPatchedVersion := none, aliases := [],
    cwes := [], publishedAt := 0, updatedAt := 0, withdrawnAt := none,
    references := [], metadata := { htmlUrl := "", apiUrl := "", cvssScore := none } }

/-- A vulnerability entry for concrete advisories. -/
def sampleVuln : Vulnerability :=
  { package := { name := "evil-pkg", ecosystem := "npm" },
    vulnerable_version_range := some "< 1.0.0",
    first_patched_version := some "1.0.0" }

/-- A raw advisory with no `vulnerabilities` field, published at time t. -/
def advAt (sid : String) (t : Int) : Advisory :=
  { ghsa_id := sid, severity := "critical", summary := "s", description := "d",
    vulnerabilities := none, identifiers := none, cwes := none,
    published_at := t, updated_at := t, withdrawn_at := none,
    references := [], html_url := "h", url := "u", cvss := none }

/-- A raw advisory with one vulnerability entry. -/
def sampleAdvisory : Advisory :=
  { advAt "GHSA-smpl" 100 with vulnerabilities := some [sampleVuln] }

/-- A one-page endpoint for the cutoff-boundary run: page 1 holds records
published at 10, 5 and 4; every other page is empty. -/
def apiOnePage : Nat → List Advisory :=
  fun p => if p = 1 then [advAt "A" 10, advAt "B" 5, advAt "C" 4] else []

/-- The error payload of an HTTP 500 response with no rate-limit headers. -/
def errInfo500 : ErrInfo :=
  { status := some 500, retryAfter := none, ratelimitReset := none }

/-- An endpoint whose first page succeeds with one record and whose second
page fails with HTTP 500: a fatal failure in mid-run, after a page has
already been fetched. -/
def apiPageTwoFails : Nat → Nat → FetchResult :=
  fun p _ => if p = 1 then .ok [advAt "A" 10] else .err errInfo500

/-- A loaded snapshot object holding the single record with key X. -/
def objW : JsObject :=
  { schemaVersion := some "1.0", generatedAt := some "t0",
    advisories := some [mkRec "X"] }

/-- A parsed object with no `advisories` field. -/
def objNoAdv : JsObject :=
  { schemaVersion := some "1.0", generatedAt := some "t0", advisories := none }

/-- Mapping `sourceId` over an appended list splits. -/
theorem sourceIds_append (l1 l2 : List NormalizedRecord) :
    sourceIds (l1 ++ l2) = sourceIds l1 ++ sourceIds l2 := by
  simp [sourceIds]

/-- The merge loop only ever appends: its output extends the accumulator
by a sublist of the batch. -/
theorem mergeLoop_extends (batch : List NormalizedRecord) :
    ∀ (acc : List NormalizedRecord) (seen : List String) (k : Nat),
      ∃ t, (mergeLoop acc seen batch k).1 = acc ++ t ∧ List.Sublist t batch := by
  induction batch with
  | nil =>
    intro acc seen k
    exact ⟨[], by simp [mergeLoop], List.Sublist.refl []⟩
  | cons b rest ih =>
    intro acc seen k
    by_cases hb : b.sourceId ∈ seen
    · obtain ⟨t, ht, hs⟩ := ih acc seen k
      exact ⟨t, by simp [mergeLoop, hb, ht], hs.cons b⟩
    · obtain ⟨t, ht, hs⟩ := ih (acc ++ [b]) (b.sourceId :: seen) (k + 1)
      refine ⟨b :: t, ?_, hs.cons₂ b⟩
      rw [show mergeLoop acc seen (b :: rest) k
            = mergeLoop (acc ++ [b]) (b.sourceId :: seen) rest (k + 1) from by
          simp [mergeLoop, hb]]
      rw [ht]
      simp

/-- The length of the merged list grows by exactly the number of additions. -/
theorem mergeLoop_len (batch : List NormalizedRecord) :
    ∀ (acc : List NormalizedRecord) (seen : List String) (k : Nat),
      (mergeLoop acc seen batch k).1.length + k
        = acc.length + (mergeLoop acc seen batch k).2 := by
  induction batch with
  | nil => intro acc seen k; simp [mergeLoop]
  | cons b rest ih =>
    intro acc seen k
    by_cases hb : b.sourceId ∈ seen
    · simpa [mergeLoop, hb] using ih acc seen k
    · have h := ih (acc ++ [b]) (b.sourceId :: seen) (k + 1)
      simp only [mergeLoop, hb, if_neg, ite_false] at h ⊢
      simp at h ⊢
      omega

/-- The running addition count never decreases. -/
theorem mergeLoop_count_ge (batch : List NormalizedRecord) :
    ∀ (acc : List NormalizedRecord) (seen : List String) (k : Nat),
      k ≤ (mergeLoop acc seen batch k).2 := by
  induction batch with
  | nil => intro acc seen k; simp [mergeLoop]
  | cons b rest ih =>
    intro acc seen k
    by_cases hb : b.sourceId ∈ seen
    · simpa [mergeLoop, hb] using ih acc seen k
    · have h := ih (acc ++ [b]) (b.sourceId :: seen) (k + 1)
      simp only [mergeLoop, hb, ite_false] at h ⊢
      simp
      omega

/-- If every key of the seen set occurs among the accumulator ids, then
after the loop every batch record has its key among the result ids. -/
theorem mergeLoop_covers (batch : List NormalizedRecord) :
    ∀ (acc : List NormalizedRecord) (seen : List String) (k : Nat),
      (∀ x ∈ seen, x ∈ sourceIds acc) →
      ∀ b ∈ batch, b.sourceId ∈ sourceIds (mergeLoop acc seen batch k).1 := by
  induction batch with
  | nil =>
    intro acc seen k _ b hb
    exact absurd hb (List.not_mem_nil b)
  | cons c rest ih =>
    intro acc seen k hsync b hb
    by_cases hc : c.sourceId ∈ seen
    · rw [show mergeLoop acc seen (c :: rest) k = mergeLoop acc seen rest k from by
        simp [mergeLoop, hc]]
      rcases List.mem_cons.mp hb with hbc | hb2
      · subst hbc
        obtain ⟨t, ht, -⟩ := mergeLoop_extends rest acc seen k
        rw [ht, sourceIds_append]
        exact List.mem_append_left _ (hsync _ hc)
      · exact ih acc seen k hsync b hb2
    · rw [show mergeLoop acc seen (c :: rest) k
            = mergeLoop (acc ++ [c]) (c.sourceId :: seen) rest (k + 1) from by
        simp [mergeLoop, hc]]
      have hsync2 : ∀ x ∈ c.sourceId :: seen, x ∈ sourceIds (acc ++ [c]) := by
        intro x hx
        rw [sourceIds_append]
        rcases List.mem_cons.mp hx with h1 | h2
        · subst h1
          exact List.mem_append_right _ (by simp [sourceIds])
        · exact List.mem_append_left _ (hsync _ h2)
      rcases List.mem_cons.mp hb with hbc | hb2
      · subst hbc
        obtain ⟨t, ht, -⟩ := mergeLoop_extends rest (acc ++ [b]) (b.sourceId :: seen) (k + 1)
        rw [ht, sourceIds_append, sourceIds_append]
        exact List.mem_append_left _ (List.mem_append_right _ (by simp [sourceIds]))
      · exact ih (acc ++ [c]) (c.sourceId :: seen) (k + 1) hsync2 b hb2

/-- When every batch key is already in the seen set, the loop changes
nothing and adds nothing. -/
theorem mergeLoop_all_seen (batch : List NormalizedRecord) :
    ∀ (acc : List NormalizedRecord) (seen : List String) (k : Nat),
      (∀ b ∈ batch, b.sourceId ∈ seen) → mergeLoop acc seen batch k = (acc, k) := by
  induction batch with
  | nil => intro acc seen k _; simp [mergeLoop]
  | cons c rest ih =>
    intro acc seen k h
    have hc : c.sourceId ∈ seen := h c (List.mem_cons_self c rest)
    rw [show mergeLoop acc seen (c :: rest) k = mergeLoop acc seen rest k from by
      simp [mergeLoop, hc]]
    exact ih acc seen k (fun b hb => h b (List.mem_cons_of_mem c hb))

/-- If the accumulator ids all occur in the seen set and are distinct, the
result ids are distinct: the loop never appends a key it has seen. -/
theorem mergeLoop_nodup (batch : List NormalizedRecord) :
    ∀ (acc : List NormalizedRecord) (seen : List String) (k : Nat),
      (∀ x ∈ sourceIds acc, x ∈ seen) → List.Nodup (sourceIds acc) →
      List.Nodup (sourceIds (mergeLoop acc seen batch k).1) := by
  induction batch with
  | nil =>
    intro acc seen k _ hnd
    simpa [mergeLoop] using hnd
  | cons c rest ih =>
    intro acc seen k hsub hnd
    by_cases hc : c.sourceId ∈ seen
    · rw [show mergeLoop acc seen (c :: rest) k = mergeLoop acc seen rest k from by
        simp [mergeLoop, hc]]
      exact ih acc seen k hsub hnd
    · rw [show mergeLoop acc seen (c :: rest) k
            = mergeLoop (acc ++ [c]) (c.sourceId :: seen) rest (k + 1) from by
        simp [mergeLoop, hc]]
      have hnotin : c.sourceId ∉ sourceIds acc := fun hmem => hc (hsub _ hmem)
      apply ih
      · intro x hx
        rw [sourceIds_append] at hx
        rcases List.mem_append.mp hx with h1 | h2
        · exact List.mem_cons_of_mem _ (hsub _ h1)
        · simp [sourceIds] at h2
          subst h2
          exact List.mem_cons_self _ _
      · rw [sourceIds_append]
        refine List.Nodup.append hnd (by simp [sourceIds]) ?_
        intro x hx1 hx2
        simp [sourceIds] at hx2
        subst hx2
        exact hnotin hx1

/-- Claim C4: the merge step is idempotent — merging the same batch into
the result of a first merge returns the same collection and adds zero
records, and (under the snapshot invariant) no identity key appears twice
in the merged collection. -/
theorem merge_idempotent (S B : List NormalizedRecord) :
    mergeDedup (mergeDedup S B).1 B = ((mergeDedup S B).1, 0)
    ∧ (List.Nodup (sourceIds S) → List.Nodup (sourceIds (mergeDedup S B).1)) := by
  constructor
  · simp only [mergeDedup]
    apply mergeLoop_all_seen
    intro b hb
    exact mergeLoop_covers B S (sourceIds S) 0 (fun x hx => hx) b hb
  · intro h
    exact mergeLoop_nodup B S (sourceIds S) 0 (fun x hx => hx) h

/-- Claim C4 witness: idempotence at a concrete snapshot and a batch with
an internal duplicate. -/
theorem merge_idempotent_witness :
    mergeDedup (mergeDedup [mkRec "A"] [mkRec "B", mkRec "B"]).1 [mkRec "B", mkRec "B"]
      = ((mergeDedup [mkRec "A"] [mkRec "B", mkRec "B"]).1, 0)
    ∧ List.Nodup (sourceIds (mergeDedup [mkRec "A"] [mkRec "B", mkRec "B"]).1) :=
  ⟨(merge_idempotent [mkRec "A"] [mkRec "B", mkRec "B"]).1,
   (merge_idempotent [mkRec "A"] [mkRec "B", mkRec "B"]).2 (by decide)⟩

/-- Claim C5: for a snapshot with pairwise-distinct source ids and any
batch (within-batch duplicates allowed), the merged collection has
pairwise-distinct source ids, starts with the existing records unchanged
and in order, and the appended tail comes from the batch. -/
theorem merge_preserves_invariant (S batch : List NormalizedRecord)
    (h : List.Nodup (sourceIds S)) :
    List.Nodup (sourceIds (mergeDedup S batch).1)
    ∧ (mergeDedup S batch).1.take S.length = S
    ∧ List.Sublist ((mergeDedup S batch).1.drop S.length) batch := by
  obtain ⟨t, ht, hs⟩ := mergeLoop_extends batch S (sourceIds S) 0
  refine ⟨mergeLoop_nodup batch S (sourceIds S) 0 (fun x hx => hx) h, ?_, ?_⟩
  · simp only [mergeDedup]
    rw [ht]
    simp
  · simp only [mergeDedup]
    rw [ht]
    simpa using hs

/-- Claim C5 witness: the invariant is preserved on a concrete snapshot
and a batch containing a duplicate key. -/
theorem merge_preserves_invariant_witness :
    List.Nodup (sourceIds (mergeDedup [mkRec "A"] [mkRec "B", mkRec "B", mkRec "A"]).1)
    ∧ (mergeDedup [mkRec "A"] [mkRec "B", mkRec "B", mkRec "A"]).1.take
        (List.length [mkRec "A"]) = [mkRec "A"]
    ∧ List.Sublist ((mergeDedup [mkRec "A"] [mkRec "B", mkRec "B", mkRec "A"]).1.drop
        (List.length [mkRec "A"])) [mkRec "B", mkRec "B", mkRec "A"] :=
  merge_preserves_invariant [mkRec "A"] [mkRec "B", mkRec "B", mkRec "A"] (by decide)

/-- Claim C2: when every fetched key already exists in the loaded snapshot
the file is left untouched (no write, no generatedAt bump); in general the
file is rewritten, with generatedAt set to the current time, exactly when
at least one record was added. -/
theorem noop_write_suppression (o : JsObject) (S batch : List NormalizedRecord)
    (now : String) (hadv : o.advisories = some S) :
    ((∀ b ∈ batch, b.sourceId ∈ sourceIds S) →
        fullPersist (.object o) batch now = ⟨0, .object o, false⟩)
    ∧ ((fullPersist (.object o) batch now).wrote = true ↔ 0 < (mergeDedup S batch).2)
    ∧ (0 < (mergeDedup S batch).2 →
        fullPersist (.object o) batch now =
          ⟨0,
           .object
             { schemaVersion := o.schemaVersion, generatedAt := some now,
               advisories := some (mergeDedup S batch).1 },
           true⟩) := by
  refine ⟨?_, ?_, ?_⟩
  · intro hall
    have h0 : mergeDedup S batch = (S, 0) := by
      simp only [mergeDedup]
      exact mergeLoop_all_seen batch S (sourceIds S) 0 hall
    simp [fullPersist, runWithLoaded, loadExisting, hadv, h0]
  · by_cases hpos : 0 < (mergeDedup S batch).2
    · simp [fullPersist, runWithLoaded, loadExisting, hadv, hpos]
    · simp [fullPersist, runWithLoaded, loadExisting, hadv, hpos]
  · intro hpos
    simp [fullPersist, runWithLoaded, loadExisting, hadv, hpos]

/-- Claim C2 witness: a batch whose single key is already present leaves
the concrete file object untouched. -/
theorem noop_write_suppression_witness :
    fullPersist (.object objW) [mkRec "X"] "t1" = ⟨0, .object objW, false⟩ :=
  (noop_write_suppression objW [mkRec "X"] [mkRec "X"] "t1" rfl).1 (by decide)

/-- Claim C6 counterexample: with a legacy bare-array snapshot file and an
empty fetched batch, the run succeeds but writes nothing, so the file
stays a bare list — no versioned snapshot is produced, contrary to the
claim read over every run. -/
theorem legacy_empty_fetch_kept :
    fullPersist (.legacyArray ["GHSA-old"]) [] "t1"
      = ⟨0, .legacyArray ["GHSA-old"], false⟩ := rfl

/-- Claim C6 (amended): with a legacy bare-array snapshot file, the run
succeeds, the legacy content is discarded in favor of the default empty
object, and — provided the fetch yielded at least one record — the file
is rewritten as a versioned snapshot holding exactly the within-batch
deduplicated batch (distinct keys, a sublist of the batch, covering every
batch key). -/
theorem legacy_discard_amended (raw : List String) (batch : List NormalizedRecord)
    (now : String) (h : batch ≠ []) :
    loadExisting (.legacyArray raw) now = defaultData now
    ∧ (fullPersist (.legacyArray raw) batch now).exit = 0
    ∧ (fullPersist (.legacyArray raw) batch now).file =
        .object { schemaVersion := some "1.0", generatedAt := some now,
                  advisories := some (mergeDedup [] batch).1 }
    ∧ List.Nodup (sourceIds (mergeDedup [] batch).1)
    ∧ List.Sublist (mergeDedup [] batch).1 batch
    ∧ ∀ b ∈ batch, b.sourceId ∈ sourceIds (mergeDedup [] batch).1 := by
  have hpos : 0 < (mergeDedup [] batch).2 := by
    obtain ⟨b, rest, rfl⟩ : ∃ b rest, batch = b :: rest := by
      cases batch with
      | nil => exact absurd rfl h
      | cons b rest => exact ⟨b, rest, rfl⟩
    have h1 : mergeDedup [] (b :: rest) = mergeLoop [b] [b.sourceId] rest 1 := by
      simp [mergeDedup, mergeLoop, sourceIds]
    rw [h1]
    exact mergeLoop_count_ge rest [b] [b.sourceId] 1
  obtain ⟨t, ht, hs⟩ := mergeLoop_extends batch [] (sourceIds []) 0
  refine ⟨rfl, ?_, ?_, ?_, ?_, ?_⟩
  · simp [fullPersist, runWithLoaded, loadExisting, defaultData, hpos]
  · simp [fullPersist, runWithLoaded, loadExisting, defaultData, hpos]
  · exact mergeLoop_nodup batch [] (sourceIds []) 0 (fun x hx => hx) (by simp [sourceIds])
  · simp only [mergeDedup]
    rw [ht]
    simpa using hs
  · exact mergeLoop_covers batch [] (sourceIds []) 0 (fun x hx => hx)

/-- Claim C6 witness: a concrete legacy file plus a nonempty batch with an
internal duplicate yields the versioned snapshot of the deduplicated
batch. -/
theorem legacy_discard_amended_witness :
    (fullPersist (.legacyArray ["GHSA-old"]) [mkRec "N", mkRec "N"] "t1").exit = 0
    ∧ (fullPersist (.legacyArray ["GHSA-old"]) [mkRec "N", mkRec "N"] "t1").file =
        .object { schemaVersion := some "1.0", generatedAt := some "t1",
                  advisories := some (mergeDedup [] [mkRec "N", mkRec "N"]).1 }
    ∧ List.Nodup (sourceIds (mergeDedup [] [mkRec "N", mkRec "N"]).1) := by
  have h := legacy_discard_amended ["GHSA-old"] [mkRec "N", mkRec "N"] "t1" (by simp)
  exact ⟨h.2.1, h.2.2.1, h.2.2.2.1⟩

/-- Claim C10: a parsed object is adopted verbatim with no shape check;
when it lacks the advisories field the merge raises, so the run exits
nonzero with the file untouched instead of falling back to an empty
snapshot. -/
theorem missing_advisories_field_fails (o : JsObject) (batch : List NormalizedRecord)
    (now : String) (h : o.advisories = none) :
    loadExisting (.object o) now = o
    ∧ fullPersist (.object o) batch now = ⟨1, .object o, false⟩ := by
  refine ⟨rfl, ?_⟩
  simp [fullPersist, runWithLoaded, loadExisting, h]

/-- Claim C10 witness: a concrete object file missing the advisories field
makes the run exit 1 without writing. -/
theorem missing_advisories_field_fails_witness :
    loadExisting (.object objNoAdv) "t1" = objNoAdv
    ∧ fullPersist (.object objNoAdv) [mkRec "A"] "t1" = ⟨1, .object objNoAdv, false⟩ :=
  missing_advisories_field_fails objNoAdv [mkRec "A"] "t1" rfl

/-- Claim C7: a raw record with no nested vulnerability entries (field
absent or empty) transforms to package name unknown, ecosystem npm, empty
range list and null first-patched version; and whenever the entries field
is present, the range list has one range per entry in order. -/
theorem transform_defaults (a : Advisory)
    (h : a.vulnerabilities = none ∨ a.vulnerabilities = some []) :
    (transformAdvisory a).packageName = "unknown"
    ∧ (transformAdvisory a).ecosystem = "npm"
    ∧ (transformAdvisory a).affectedVersionRanges = []
    ∧ (transformAdvisory a).firstPatchedVersion = none
    ∧ ∀ (b : Advisory) (l : List Vulnerability), b.vulnerabilities = some l →
        (transformAdvisory b).affectedVersionRanges
          = l.map (fun w => w.vulnerable_version_range) := by
  refine ⟨?_, ?_, ?_, ?_, ?_⟩
  · rcases h with h | h <;> simp [transformAdvisory, h]
  · rcases h with h | h <;> simp [transformAdvisory, h]
  · rcases h with h | h <;> simp [transformAdvisory, h]
  · rcases h with h | h <;> simp [transformAdvisory, h]
  · intro b l hb
    cases l with
    | nil => simp [transformAdvisory, hb]
    | cons v vs => simp [transformAdvisory, hb]

/-- Claim C7 witness: a concrete advisory without entries takes every
default, and one with a single entry gets a one-element range list. -/
theorem transform_defaults_witness :
    (transformAdvisory (advAt "GHSA-e" 0)).packageName = "unknown"
    ∧ (transformAdvisory (advAt "GHSA-e" 0)).ecosystem = "npm"
    ∧ (transformAdvisory (advAt "GHSA-e" 0)).affectedVersionRanges = []
    ∧ (transformAdvisory (advAt "GHSA-e" 0)).firstPatchedVersion = none
    ∧ (transformAdvisory sampleAdvisory).affectedVersionRanges
        = [sampleVuln].map (fun w => w.vulnerable_version_range) := by
  have h := transform_defaults (advAt "GHSA-e" 0) (Or.inl rfl)
  exact ⟨h.1, h.2.1, h.2.2.1, h.2.2.2.1, h.2.2.2.2 sampleAdvisory [sampleVuln] rfl⟩

/-- Every record accepted by the page scan is at or after the cutoff. -/
theorem scanPage_ge (cutoff : Int) (l : List Advisory) :
    ∀ a ∈ (scanPage cutoff l).1, cutoff ≤ a.published_at := by
  induction l with
  | nil => simp [scanPage]
  | cons x rest ih =>
    by_cases hx : x.published_at < cutoff
    · simp [scanPage, hx]
    · intro a ha
      simp only [scanPage, hx, ite_false, if_neg] at ha
      simp at ha
      rcases ha with rfl | ha
      · omega
      · exact ih a ha

/-- Scanning a page whose records sit at or after the cutoff up to one
that is strictly older accepts exactly the early part and clears the
keep-fetching flag. -/
theorem scanPage_split (cutoff : Int) (pre : List Advisory) (rN rN1 : Advisory)
    (post : List Advisory)
    (hpre : ∀ a ∈ pre, ¬ a.published_at < cutoff)
    (hN : ¬ rN.published_at < cutoff)
    (hN1 : rN1.published_at < cutoff) :
    scanPage cutoff (pre ++ rN :: rN1 :: post) = (pre ++ [rN], false) := by
  induction pre with
  | nil => simp [scanPage, hN, hN1]
  | cons a t ih =>
    have ha : ¬ a.published_at < cutoff := hpre a (List.mem_cons_self a t)
    have ht : ∀ x ∈ t, ¬ x.published_at < cutoff :=
      fun x hx => hpre x (List.mem_cons_of_mem a hx)
    simp [scanPage, ha, ih ht]

/-- Every record the page loop returns is at or after the cutoff. -/
theorem fetchGo_ge (api : Nat → List Advisory) (cutoff : Int) (page : Nat) :
    ∀ a ∈ (fetchGo api cutoff page).1, cutoff ≤ a.published_at := by
  intro a ha
  rw [fetchGo] at ha
  split at ha
  · simp at ha
  · split at ha
    · split at ha
      · exact scanPage_ge cutoff (api page) a ha
      · rcases List.mem_append.mp ha with h | h
        · exact scanPage_ge cutoff (api page) a h
        · exact fetchGo_ge api cutoff (page + 1) a h
    · exact scanPage_ge cutoff (api page) a ha
termination_by 501 - page
decreasing_by omega

/-- Starting at or below page 500, the loop never requests a page number
above 500. -/
theorem fetchGo_pages_le (api : Nat → List Advisory) (cutoff : Int) (page : Nat)
    (hpage : page ≤ 500) : ∀ q ∈ (fetchGo api cutoff page).2, q ≤ 500 := by
  intro q hq
  rw [fetchGo] at hq
  split at hq
  · simp at hq
    omega
  · split at hq
    · split at hq
      · simp at hq
        omega
      · simp at hq
        rcases hq with rfl | hq
        · omega
        · exact fetchGo_pages_le api cutoff (page + 1) (by omega) q hq
    · simp at hq
      omega
termination_by 501 - page
decreasing_by omega

/-- Starting at or below page 500, the loop requests at most `501 - page`
pages. -/
theorem fetchGo_pages_len (api : Nat → List Advisory) (cutoff : Int) (page : Nat)
    (hpage : page ≤ 500) : (fetchGo api cutoff page).2.length ≤ 501 - page := by
  rw [fetchGo]
  split
  · simp
    omega
  · split
    · split
      · simp
        omega
      · have h := fetchGo_pages_len api cutoff (page + 1) (by omega)
        simp
        omega
    · simp
      omega
termination_by 501 - page
decreasing_by omega

/-- Claim C8: the fetch loop requests at most 500 pages, all with numbers
at most 500, whatever the endpoint returns — the page ceiling bounds the
pagination. -/
theorem page_ceiling_cap (api : Nat → List Advisory) (cutoff : Int) :
    (fetchGo api cutoff 1).2.length ≤ 500
    ∧ ∀ q ∈ (fetchGo api cutoff 1).2, q ≤ 500 := by
  constructor
  · have h := fetchGo_pages_len api cutoff 1 (by omega)
    omega
  · exact fetchGo_pages_le api cutoff 1 (by omega)

/-- Claim C3: on a page whose early records are at or after the cutoff,
then one exactly at the cutoff, then one strictly older, the loop keeps
the early records and the boundary record, drops the rest, requests no
further page, and in general only outputs records at or after the
cutoff. -/
theorem cutoff_boundary_stop (api : Nat → List Advisory) (cutoff : Int)
    (pre : List Advisory) (rN rN1 : Advisory) (post : List Advisory)
    (hpre : ∀ a ∈ pre, cutoff ≤ a.published_at)
    (hN : rN.published_at = cutoff)
    (hN1 : rN1.published_at < cutoff)
    (hpage : api 1 = pre ++ rN :: rN1 :: post) :
    (fetchGo api cutoff 1).1 = pre ++ [rN]
    ∧ (fetchGo api cutoff 1).2 = [1]
    ∧ ∀ (api2 : Nat → List Advisory) (c2 : Int) (p : Nat),
        ∀ a ∈ (fetchGo api2 c2 p).1, c2 ≤ a.published_at := by
  have hscan : scanPage cutoff (api 1) = (pre ++ [rN], false) := by
    rw [hpage]
    exact scanPage_split cutoff pre rN rN1 post
      (fun a ha => not_lt.mpr (hpre a ha)) (by omega) hN1
  have hne : (api 1).isEmpty = false := by
    rw [hpage]
    cases pre <;> simp
  refine ⟨?_, ?_, ?_⟩
  · rw [fetchGo]
    simp [hne, hscan]
  · rw [fetchGo]
    simp [hne, hscan]
  · intro api2 c2 p
    exact fetchGo_ge api2 c2 p

/-- Claim C3 witness: a concrete one-page endpoint with records published
at 10, 5, 4 against cutoff 5 keeps the first two and requests only
page 1. -/
theorem cutoff_boundary_stop_witness :
    (fetchGo apiOnePage 5 1).1 = [advAt "A" 10] ++ [advAt "B" 5]
    ∧ (fetchGo apiOnePage 5 1).2 = [1] := by
  have h := cutoff_boundary_stop apiOnePage 5 [advAt "A" 10] (advAt "B" 5)
    (advAt "C" 4) [] (by decide) (by decide) (by decide) rfl
  exact ⟨h.1, h.2.1⟩

/-- With an endpoint that always succeeds and enough fuel, the fueled loop
with retry handling computes exactly the records of the success-only page
loop: the two embeddings of the while loop agree. -/
theorem fetchLoopF_agrees (api : Nat → List Advisory) (cutoff : Int) :
    ∀ (fuel page : Nat), page ≤ 500 → 501 - page ≤ fuel →
      fetchLoopF (fun p _ => .ok (api p)) cutoff fuel page 0
        = some (.ok (fetchGo api cutoff page).1) := by
  intro fuel
  induction fuel with
  | zero =>
    intro page h1 h2
    omega
  | succ fuel ih =>
    intro page h1 h2
    rw [fetchGo]
    simp only [fetchLoopF]
    by_cases he : (api page).isEmpty
    · simp [he]
    · simp only [he, ite_false, if_neg, Bool.false_eq_true]
      by_cases hkf : (scanPage cutoff (api page)).2
      · by_cases hceil : 500 < page + 1
        · simp [he, hkf, hceil]
        · have hrec := ih (page + 1) (by omega) (by omega)
          simp [he, hkf, hceil, hrec, Except.map]
      · simp [he, hkf]

/-- Claim C9: a failed request whose status is neither 429 nor 403 (or a
transport failure with no response) is not retried but rethrown at once,
at whatever page and attempt of the run it occurs — also after earlier
pages succeeded; conversely the loop only ever surfaces such fatal
errors; and whenever the fetch phase of a run surfaces an error, the run
exits nonzero with the snapshot file neither written nor modified. -/
theorem fatal_error_propagates (info : ErrInfo)
    (h : ∀ s, info.status = some s → s ≠ 429 ∧ s ≠ 403) :
    isRateLimit info.status = false
    ∧ (∀ (api : Nat → Nat → FetchResult) (cutoff : Int) (fuel page attempt : Nat),
        api page attempt = .err info →
        fetchLoopF api cutoff (fuel + 1) page attempt = some (.error info))
    ∧ (∀ (api : Nat → Nat → FetchResult) (cutoff : Int) (fuel page attempt : Nat)
        (e : ErrInfo),
        fetchLoopF api cutoff fuel page attempt = some (.error e) →
        isRateLimit e.status = false)
    ∧ (∀ (api : Nat → Nat → FetchResult) (cutoff : Int) (fuel : Nat)
        (file : FileState) (now : String) (e : ErrInfo),
        fetchLoopF api cutoff fuel 1 0 = some (.error e) →
        fullRun api cutoff fuel file now = some ⟨1, file, false⟩) := by
  have hrl : isRateLimit info.status = false := by
    cases hs : info.status with
    | none => rfl
    | some s =>
      have hne := h s hs
      simp [isRateLimit, hne.1, hne.2]
  refine ⟨hrl, ?_, ?_, ?_⟩
  · intro api cutoff fuel page attempt hapi
    simp [fetchLoopF, hapi, hrl]
  · intro api cutoff fuel
    induction fuel with
    | zero =>
      intro page attempt e he
      simp [fetchLoopF] at he
    | succ fuel ih =>
      intro page attempt e he
      simp only [fetchLoopF] at he
      cases hresp : api page attempt with
      | err i =>
        rw [hresp] at he
        by_cases hi : isRateLimit i.status
        · simp only [hi, ite_true, if_pos] at he
          exact ih page (attempt + 1) e he
        · simp only [hi, ite_false, if_neg, Bool.false_eq_true] at he
          simp at he
          subst he
          simpa using hi
      | ok data =>
        rw [hresp] at he
        by_cases hd : data.isEmpty
        · simp [hd] at he
        · simp only [hd, ite_false, if_neg, Bool.false_eq_true] at he
          by_cases hkf : (scanPage cutoff data).2
          · by_cases hceil : 500 < page + 1
            · simp [hkf, hceil] at he
            · simp only [hkf, hceil, ite_true, ite_false, if_pos, if_neg,
                not_false_eq_true] at he
              cases hfl : fetchLoopF api cutoff fuel (page + 1) 0 with
              | none => rw [hfl] at he; simp at he
              | some r =>
                rw [hfl] at he
                cases r with
                | ok l => simp [Except.map] at he
                | error e2 =>
                  simp [Except.map] at he
                  subst he
                  exact ih (page + 1) 0 e2 hfl
          · simp [hkf] at he
  · intro api cutoff fuel file now e he
    simp [fullRun, he]

/-- Claim C9 witness: a concrete endpoint succeeding on page 1 and
answering HTTP 500 on page 2 — the failing request is rethrown at once,
and the whole run exits 1 with the absent file untouched, the page-1
records discarded unwritten. -/
theorem fatal_error_propagates_witness :
    isRateLimit (some 500) = false
    ∧ fetchLoopF apiPageTwoFails 5 1 2 0 = some (.error errInfo500)
    ∧ fullRun apiPageTwoFails 5 3 .absent "t1" = some ⟨1, .absent, false⟩ := by
  have h := fatal_error_propagates errInfo500
    (by
      intro s hs
      simp [errInfo500] at hs
      subst hs
      exact ⟨by decide, by decide⟩)
  refine ⟨h.1, ?_, ?_⟩
  · exact h.2.1 apiPageTwoFails 5 0 2 0 rfl
  · exact h.2.2.2 apiPageTwoFails 5 3 .absent "t1" errInfo500 (by rfl)

/-- Claim C1 (code bug): with a retry-after header of 5 and no reset
header the code waits 60 seconds, not the 5 the specification describes —
the ternary precedence makes the wait ignore the retry-after value — while
the spec-modelled computation yields 5; the reset-minus-now and default
paths do behave as described. -/
theorem rate_limit_wait_reset_only :
    (∀ now : Int, jsWaitSeconds (some 5) none now = 60)
    ∧ (∀ now : Int, specWaitSeconds (some 5) none now = 5)
    ∧ (∀ now : Int, jsWaitSeconds none none now = 60)
    ∧ (∀ now : Int, jsWaitSeconds none (some (now + 7)) now = 7) := by
  refine ⟨fun now => rfl, fun now => rfl, fun now => rfl, fun now => ?_⟩
  have h7 : now + 7 - now = (7 : Int) := by omega
  simp [jsWaitSeconds, h7]

end Pistachio
